import Mathlib

set_option maxHeartbeats 1000000

/- Shallow embedding of the osmo-ios backend command-orchestration core:
   the plan schemas (app/schemas/action_plan.py, app/schemas/device.py),
   the policy evaluator (app/core/policy.py), the executor
   (app/core/executor.py), the confirm endpoint (app/api/command.py),
   the session manager trim (app/core/session_manager.py) and the
   tool-name translation used by the LLM connectors. -/

/-- A JSON-like Python value, as stored in step args and message contents. -/
inductive Value where
  | vNull : Value
  | vBool : Bool → Value
  | vInt : Int → Value
  | vStr : String → Value
  | vList : List Value → Value
  | vDict : List (String × Value) → Value

/-- Python truthiness of an embedded value. -/
def pyTruthy : Value → Bool
  | Value.vNull => false
  | Value.vBool b => b
  | Value.vInt n => n != 0
  | Value.vStr s => !s.isEmpty
  | Value.vList xs => !xs.isEmpty
  | Value.vDict kvs => !kvs.isEmpty

/-- Python `d.get(key, default)` on a dict value (keys are unique). -/
def dictGetD (kvs : List (String × Value)) (k : String) (d : Value) : Value :=
  match kvs.find? (fun kv => kv.fst == k) with
  | some kv => kv.snd
  | none => d

/-- Python `d.get(key)` on a dict value, `None` when absent. -/
def dictGet? (kvs : List (String × Value)) (k : String) : Option Value :=
  (kvs.find? (fun kv => kv.fst == k)).map (fun kv => kv.snd)

/-- Python `key in d` on a dict value. -/
def dictHasKey (kvs : List (String × Value)) (k : String) : Bool :=
  kvs.any (fun kv => kv.fst == k)

/-- RiskLevel from app/schemas/action_plan.py. -/
inductive RiskLevel where
  | low : RiskLevel
  | medium : RiskLevel
  | high : RiskLevel
deriving DecidableEq

/-- The total order used by policy `_upgrade_risk` (low < medium < high). -/
def riskOrder : RiskLevel → Nat
  | RiskLevel.low => 0
  | RiskLevel.medium => 1
  | RiskLevel.high => 2

/-- The `execution_target` literal of an ActionStep. -/
inductive ExecTarget where
  | server : ExecTarget
  | device : ExecTarget
deriving DecidableEq

/-- ActionStep from app/schemas/action_plan.py. -/
structure ActionStep where
  tool_name : String
  args : List (String × Value)
  risk_level : RiskLevel := RiskLevel.low
  requires_confirmation : Bool := false
  confirmation_phrase : Option String := none
  idempotency_key : String
  execution_target : ExecTarget := ExecTarget.server
  tool_call_id : Option String := none

/-- ActionPlan from app/schemas/action_plan.py (created_at omitted: it is
never read by the orchestration core). -/
structure ActionPlan where
  plan_id : String
  user_intent : String
  timezone : String := "UTC"
  locale : String := "en-US"
  steps : List ActionStep

/-- ActionPlan.needs_confirmation. -/
def ActionPlan.needs_confirmation (p : ActionPlan) : Bool :=
  p.steps.any (fun s => s.requires_confirmation)

/-- DESTRUCTIVE_TOOLS from app/core/policy.py. -/
def DESTRUCTIVE_TOOLS : List String :=
  ["google_calendar.delete_event", "ios_eventkit.delete_event"]

/-- ATTENDEE_TOOLS from app/core/policy.py. -/
def ATTENDEE_TOOLS : List String :=
  ["google_calendar.create_event", "google_calendar.update_event"]

/-- NOTIFICATION_SEND_VALUES from app/core/policy.py. -/
def NOTIFICATION_SEND_VALUES : List String := ["all", "externalOnly"]

/-- `_upgrade_risk` from app/core/policy.py: raise the risk level to the
target only when the target is strictly above the current value. -/
def _upgrade_risk (step : ActionStep) (target : RiskLevel) : ActionStep :=
  if riskOrder step.risk_level < riskOrder target then
    { step with risk_level := target }
  else step

/-- Python falsiness of `step.confirmation_phrase` (None or empty string). -/
def phraseFalsy : Option String → Bool
  | none => true
  | some s => s == ""

/-- The repeated policy pattern `if not step.confirmation_phrase:
step.confirmation_phrase = phrase`. -/
def setDefaultPhrase (step : ActionStep) (phrase : String) : ActionStep :=
  if phraseFalsy step.confirmation_phrase then
    { step with confirmation_phrase := some phrase }
  else step

/-- The repeated policy escalation block: upgrade risk, force
requires_confirmation, and default the confirmation phrase. -/
def escalateStep (step : ActionStep) (target : RiskLevel) (phrase : String) : ActionStep :=
  setDefaultPhrase { _upgrade_risk step target with requires_confirmation := true } phrase

/-- Python `", ".join(v[0:3])`: defined for strings (character slice) and
lists of strings; any other value raises TypeError in the source. -/
def joinFirstThree : Value → Except String String
  | Value.vStr s =>
      Except.ok (String.intercalate ", " ((s.toList.take 3).map (fun c => String.mk [c])))
  | Value.vList xs =>
      match xs.take 3 |>.mapM (fun v =>
        match v with
        | Value.vStr t => Except.ok t
        | _ => Except.error "TypeError: sequence item: expected str instance") with
      | Except.ok parts => Except.ok (String.intercalate ", " parts)
      | Except.error e => Except.error e
  | _ => Except.error "TypeError: value is not subscriptable"

/-- Python `len(v)`: defined for strings, lists and dicts. -/
def pyLen : Value → Except String Nat
  | Value.vStr s => Except.ok s.length
  | Value.vList xs => Except.ok xs.length
  | Value.vDict kvs => Except.ok kvs.length
  | _ => Except.error "TypeError: object has no length"

/-- The attendee confirmation phrase built in `_apply_step_policy`. -/
def attendeePhrase (attendees : Value) : Except String String :=
  match joinFirstThree attendees with
  | Except.error e => Except.error e
  | Except.ok names =>
    match pyLen attendees with
    | Except.error e => Except.error e
    | Except.ok n =>
      let suffix := if 3 < n then " and " ++ toString (n - 3) ++ " more" else ""
      Except.ok ("This will invite " ++ names ++ suffix ++ ". Confirm?")

/-- The attendee escalation block of `_apply_step_policy`: the phrase is only
computed (and can only raise) when the current phrase is falsy. -/
def escalateAttendees (step : ActionStep) (attendees : Value) : Except String ActionStep :=
  let s := { _upgrade_risk step RiskLevel.medium with requires_confirmation := true }
  if phraseFalsy s.confirmation_phrase then
    match attendeePhrase attendees with
    | Except.error e => Except.error e
    | Except.ok phrase => Except.ok { s with confirmation_phrase := some phrase }
  else Except.ok s

/-- Membership test `send_updates in NOTIFICATION_SEND_VALUES`: a non-string
value compares unequal to every element. -/
def sendUpdatesFlag : Value → Bool
  | Value.vStr s => NOTIFICATION_SEND_VALUES.contains s
  | _ => false

/-- required_by_tool table of `_check_missing_fields` in app/core/policy.py. -/
def required_by_tool (tool : String) : List String :=
  if tool == "google_calendar.create_event" then ["title", "start", "end"]
  else if tool == "google_calendar.update_event" then ["event_id", "patch_fields"]
  else if tool == "google_calendar.delete_event" then ["event_id"]
  else if tool == "google_calendar.list_events" then ["time_min", "time_max"]
  else if tool == "ios_eventkit.create_event" then ["title", "start", "end"]
  else if tool == "ios_eventkit.update_event" then ["event_identifier", "patch_fields"]
  else if tool == "ios_eventkit.delete_event" then ["event_identifier"]
  else if tool == "ios_eventkit.list_events" then ["start", "end"]
  else []

/-- `_check_missing_fields` from app/core/policy.py: computes the missing
required fields; the source only logs them and leaves the step unchanged. -/
def _check_missing_fields (step : ActionStep) : List String :=
  (required_by_tool step.tool_name).filter (fun f => !dictHasKey step.args f)

/-- The first block of `_apply_step_policy`: destructive tools force
risk=high, confirmation, and a default deletion phrase. -/
def destructiveBlock (step : ActionStep) : ActionStep :=
  if step.tool_name ∈ DESTRUCTIVE_TOOLS then
    escalateStep step RiskLevel.high "This will permanently delete an event. Are you sure?"
  else step

/-- The second block of `_apply_step_policy`: attendee tools escalate on a
truthy attendees argument (with a computed phrase that can raise) and on a
notifying send_updates argument. -/
def attendeeBlock (step : ActionStep) : Except String ActionStep :=
  if step.tool_name ∈ ATTENDEE_TOOLS then
    let attendees := dictGetD step.args "attendees" (Value.vList [])
    let send_updates := dictGetD step.args "send_updates" (Value.vStr "none")
    match (if pyTruthy attendees then escalateAttendees step attendees else Except.ok step) with
    | Except.error e => Except.error e
    | Except.ok step2 =>
        Except.ok (if sendUpdatesFlag send_updates then
          escalateStep step2 RiskLevel.medium "This will send notifications to attendees. Confirm?"
        else step2)
  else Except.ok step

/-- `_apply_step_policy` from app/core/policy.py: the destructive block, then
the attendee block (`_check_missing_fields` only logs). The in-place mutation
of the step is rendered functionally; a Python TypeError raised while
building the attendee phrase is an `Except.error`. -/
def _apply_step_policy (step : ActionStep) : Except String ActionStep :=
  attendeeBlock (destructiveBlock step)

/-- PolicyResult from app/core/policy.py. -/
structure PolicyResult where
  plan : ActionPlan
  blocked : Bool := false
  block_reason : Option String := none

/-- The `for step in plan.steps: _apply_step_policy(step)` loop of
`evaluate`, with Python exception propagation. -/
def applySteps : List ActionStep → Except String (List ActionStep)
  | [] => Except.ok []
  | s :: rest =>
    match _apply_step_policy s with
    | Except.error e => Except.error e
    | Except.ok s2 =>
      match applySteps rest with
      | Except.error e => Except.error e
      | Except.ok rest2 => Except.ok (s2 :: rest2)

/-- `evaluate` from app/core/policy.py: apply the step policy to every step
and wrap the plan in an unblocked PolicyResult. -/
def evaluate (plan : ActionPlan) : Except String PolicyResult :=
  match applySteps plan.steps with
  | Except.error e => Except.error e
  | Except.ok steps => Except.ok { plan := { plan with steps := steps } }


/-- DeviceAction from app/schemas/device.py. -/
structure DeviceAction where
  action_id : String
  tool_name : String
  args : List (String × Value)
  idempotency_key : String

/-- StepResult from app/core/executor.py. -/
structure StepResult where
  step : ActionStep
  success : Bool
  result : Option (List (String × Value)) := none
  error : Option String := none
  device_action : Option DeviceAction := none

/-- ExecutionResult from app/core/executor.py. -/
structure ExecutionResult where
  step_results : List StepResult := []
  device_actions : List DeviceAction := []
  all_succeeded : Bool := true

/-- ExecutionResult.add: append the step result, collect its device action,
and clear all_succeeded on failure. -/
def ExecutionResult.add (r : ExecutionResult) (sr : StepResult) : ExecutionResult :=
  { step_results := r.step_results ++ [sr],
    device_actions :=
      r.device_actions ++ (match sr.device_action with
        | some da => [da]
        | none => []),
    all_succeeded := if sr.success then r.all_succeeded else false }

/-- The behavior of a registered tool: `execute` maps the step args to a
result dict or a raised error. This abstracts `BaseTool.execute` together
with the ambient ToolContext, which the executor only passes through. -/
structure Tool where
  execute : List (String × Value) → Except String (List (String × Value))

/-- The executor environment: the registry lookup `get_tool` and the
`uuid.uuid4().hex` generator, indexed by how many ids were drawn so far. -/
structure ExecEnv where
  get_tool : String → Option Tool
  uuid4 : Nat → String

/-- The mutable executor state: `self._executed_keys`, the uuid draw count,
and a trace of the tool names whose `execute` was invoked. -/
structure ExecutorState where
  executed_keys : List String
  uuidCount : Nat := 0
  invoked : List String := []

/-- `Executor._build_device_action`: synthesize a DeviceAction with a fresh
action_id and the step args and idempotency key, and mark the key executed. -/
def _build_device_action (env : ExecEnv) (st : ExecutorState) (step : ActionStep) :
    StepResult × ExecutorState :=
  let action : DeviceAction :=
    { action_id := env.uuid4 st.uuidCount, tool_name := step.tool_name,
      args := step.args, idempotency_key := step.idempotency_key }
  ({ step := step, success := true, device_action := some action },
   { st with executed_keys := st.executed_keys ++ [step.idempotency_key],
             uuidCount := st.uuidCount + 1 })

/-- `Executor._execute_step`: idempotent skip, device delegation, unknown
tool failure, or tool invocation (success records the idempotency key,
a raised exception becomes a failed StepResult). -/
def _execute_step (env : ExecEnv) (st : ExecutorState) (step : ActionStep) :
    StepResult × ExecutorState :=
  if st.executed_keys.contains step.idempotency_key then
    ({ step := step, success := true, result := some [("skipped", Value.vBool true)] }, st)
  else if step.execution_target = ExecTarget.device then
    _build_device_action env st step
  else
    match env.get_tool step.tool_name with
    | none =>
        ({ step := step, success := false,
           error := some ("Unknown tool: " ++ step.tool_name) }, st)
    | some tool =>
        let st1 := { st with invoked := st.invoked ++ [step.tool_name] }
        match tool.execute step.args with
        | Except.ok result =>
            ({ step := step, success := true, result := some result },
             { st1 with executed_keys := st1.executed_keys ++ [step.idempotency_key] })
        | Except.error exc =>
            ({ step := step, success := false, error := some exc }, st1)

/-- The shared step loop of `execute_plan` and `execute_confirmed_plan`:
when `skipConfirm` is true, steps flagged requires_confirmation are skipped
(execute-now pass); processing stops after the first failed step. -/
def executeSteps (env : ExecEnv) (skipConfirm : Bool) :
    ExecutorState → ExecutionResult → List ActionStep → ExecutionResult × ExecutorState
  | st, result, [] => (result, st)
  | st, result, step :: rest =>
    if skipConfirm && step.requires_confirmation then
      executeSteps env skipConfirm st result rest
    else
      let out := _execute_step env st step
      let result2 := result.add out.fst
      if out.fst.success then executeSteps env skipConfirm out.snd result2 rest
      else (result2, out.snd)

/-- `Executor.execute_plan` (the execute-now pass). -/
def execute_plan (env : ExecEnv) (st : ExecutorState) (plan : ActionPlan) :
    ExecutionResult × ExecutorState :=
  executeSteps env true st {} plan.steps

/-- `Executor.execute_confirmed_plan` (the execute-confirmed pass). -/
def execute_confirmed_plan (env : ExecEnv) (st : ExecutorState) (plan : ActionPlan) :
    ExecutionResult × ExecutorState :=
  executeSteps env false st {} plan.steps

/-- A session message: a Python dict, as stored in session turn lists. -/
abbrev Msg := List (String × Value)

/-- A pending plan entry of `_pending_plans` in app/api/command.py:
`(plan, owning user id, session message snapshot)`. -/
structure PendingEntry where
  plan : ActionPlan
  owner_id : String
  session_messages : List Msg

/-- The process-wide `_pending_plans` dict, keyed by plan_id. -/
def PendingStore : Type := String → Option PendingEntry

/-- Python `dict.pop(key, None)`: the popped value and the shrunken dict. -/
def popPending (store : PendingStore) (plan_id : String) :
    Option PendingEntry × PendingStore :=
  (store plan_id, fun k => if k = plan_id then none else store k)

/-- The two error classes raised by the confirm endpoint. -/
inductive HTTPError where
  | notFound404 : HTTPError
  | forbidden403 : HTTPError
deriving DecidableEq

/-- The `confirm_plan` endpoint of app/api/command.py, up to and including
the execute-confirmed pass: pop the pending entry (404 when absent), check
ownership (403 on mismatch), then run the executor on the stored plan. -/
def confirm_plan (env : ExecEnv) (st : ExecutorState) (store : PendingStore)
    (plan_id : String) (caller_id : String) :
    Except HTTPError (ExecutionResult × ExecutorState) × PendingStore :=
  let popped := popPending store plan_id
  match popped.fst with
  | none => (Except.error HTTPError.notFound404, popped.snd)
  | some entry =>
    if entry.owner_id ≠ caller_id then (Except.error HTTPError.forbidden403, popped.snd)
    else (Except.ok (execute_confirmed_plan env st entry.plan), popped.snd)

/-- `SessionManager._is_plain_text`: a string content is plain text; a list
content is plain text when every block is a dict whose "type" is "text". -/
def _is_plain_text (msg : Msg) : Bool :=
  match dictGet? msg "content" with
  | some (Value.vStr _) => true
  | some (Value.vList blocks) =>
      blocks.all (fun b =>
        match b with
        | Value.vDict kvs =>
            match dictGet? kvs "type" with
            | some (Value.vStr t) => t == "text"
            | _ => false
        | _ => false)
  | _ => false

/-- The walk condition of `SessionManager._trim`:
`msg.get("role") == "user" and self._is_plain_text(msg)`. -/
def isPlainUserTurn (msg : Msg) : Bool :=
  (match dictGet? msg "role" with
   | some (Value.vStr r) => r == "user"
   | _ => false) && _is_plain_text msg

/-- Python slice `xs[-n:]`: the last n elements, except that n = 0 yields
the whole list (slicing with negative zero). -/
def takeLastPy (n : Nat) (xs : List Msg) : List Msg :=
  if n = 0 then xs else xs.drop (xs.length - n)

/-- The forward walk of `SessionManager._trim`: the suffix starting at the
first plain user text turn, or none when no such turn exists (the for-else). -/
def dropToPlainUser : List Msg → Option (List Msg)
  | [] => none
  | m :: rest =>
      if isPlainUserTurn m then some (m :: rest)
      else dropToPlainUser rest

/-- `SessionManager._trim` from app/core/session_manager.py. -/
def _trim (max_messages : Nat) (messages : List Msg) : List Msg :=
  if messages.length ≤ max_messages then messages
  else
    let trimmed := takeLastPy max_messages messages
    match dropToPlainUser trimmed with
    | some tail => tail
    | none => takeLastPy 4 trimmed

/-- `settings.session_max_messages` from app/config.py. -/
def session_max_messages : Nat := 50

/-- Python `s.replace(old, new)` scan over the characters, with fuel (the
initial character count bounds the number of scan positions). -/
def replaceAux (pat rep : List Char) : Nat → List Char → List Char
  | _, [] => []
  | 0, l => l
  | fuel + 1, c :: rest =>
    if List.isPrefixOf pat (c :: rest) then
      rep ++ replaceAux pat rep fuel (List.drop pat.length (c :: rest))
    else c :: replaceAux pat rep fuel rest

/-- Python `s.replace(old, new)`: replace every non-overlapping occurrence,
scanning left to right; an empty pattern interleaves `new` around every
character. -/
def pyReplace (s old new : String) : String :=
  match old.data with
  | [] => String.mk (new.data ++ (s.data.map (fun c => c :: new.data)).flatten)
  | _ :: _ => String.mk (replaceAux old.data new.data s.data.length s.data)

/-- Modelled from the spec: `_to_api_name` is imported from
`app.core.planner` by app/api/command.py and app/connectors/llm.py, but its
definition is absent from the source tree. The spec states that the Planner
reversibly substitutes an API-safe separator for the namespacing dot when
sending tool specs out; the separator is modelled as a double underscore,
which occurs in no registered tool name. -/
def _to_api_name (name : String) : String := pyReplace name "." "__"

/-- Modelled from the spec: `_from_api_name`, the restoring direction used
when parsing tool calls back (see `_to_api_name`). -/
def _from_api_name (name : String) : String := pyReplace name "__" "."

/-- Every tool name registered by the modules under app/tools (each class
sets `name = "..."` and is registered via the registry). -/
def registeredToolNames : List String :=
  ["google_gmail.search_emails", "google_gmail.read_email",
   "google_gmail.list_attachments", "google_gmail.get_attachment",
   "ios_eventkit.list_events", "ios_eventkit.create_event",
   "ios_eventkit.update_event", "ios_eventkit.delete_event",
   "ios_messages.send_message", "ios_music.play", "ios_music.pause",
   "ios_music.resume", "ios_music.skip", "ios_notifications.schedule",
   "ios_notifications.cancel", "ios_notifications.cancel_all",
   "user_profile.set_name", "ios_app_launcher.open_app",
   "google_calendar.list_events", "google_calendar.create_event",
   "google_calendar.update_event", "google_calendar.delete_event",
   "google_calendar.freebusy", "google_calendar.quick_add",
   "ios_camera.take_photo", "ios_camera.record_video",
   "ios_device.copy_to_clipboard", "ios_device.set_brightness",
   "ios_device.flashlight", "google_routes.get_directions",
   "google_routes.get_departure_time", "google_routes.get_commute_time",
   "ios_navigation.open_in_maps", "ios_reminders.list_reminders",
   "ios_reminders.create_reminder", "ios_reminders.complete_reminder",
   "ios_reminders.delete_reminder", "ios_translation.translate",
   "web_search.search"]


/-- Fixture: an environment whose registry has no tools. -/
def envNoTools : ExecEnv :=
  { get_tool := fun _ => none, uuid4 := fun n => "uuid" ++ toString n }

/-- Fixture: a fresh executor state (`Executor()`). -/
def stFresh : ExecutorState := { executed_keys := [] }

/-- Claim C3: a step whose idempotency_key is already in the executed-key set
is not executed: no tool is invoked (the state, including the invocation
trace, is returned unchanged) and the StepResult is a success carrying the
skipped marker. -/
theorem executor_idempotent_skip (env : ExecEnv) (st : ExecutorState) (step : ActionStep)
    (h : step.idempotency_key ∈ st.executed_keys) :
    _execute_step env st step =
      ({ step := step, success := true,
         result := some [("skipped", Value.vBool true)] }, st) := by
  simp [_execute_step, h]

/-- Claim C3 witness: a concrete step with a pre-marked key is skipped. -/
theorem executor_idempotent_skip_witness :
    "k1" ∈ (ExecutorState.mk ["k1"] 0 []).executed_keys ∧
    _execute_step envNoTools (ExecutorState.mk ["k1"] 0 [])
        { tool_name := "google_calendar.create_event",
          args := [("title", Value.vStr "Standup")], idempotency_key := "k1" } =
      ({ step := { tool_name := "google_calendar.create_event",
                   args := [("title", Value.vStr "Standup")], idempotency_key := "k1" },
         success := true, result := some [("skipped", Value.vBool true)] },
       ExecutorState.mk ["k1"] 0 []) :=
  ⟨by decide, executor_idempotent_skip _ _ _ (by decide)⟩

/-- Fixture: a device-surface step whose idempotency key is "k2". -/
def dstepC4 : ActionStep :=
  { tool_name := "ios_eventkit.create_event", args := [("title", Value.vStr "Dentist")],
    idempotency_key := "k2", execution_target := ExecTarget.device }

/-- Claim C4 counterexample: a device-surface step whose idempotency key is
already marked executed does NOT produce a DeviceAction — the idempotency
check precedes the device branch, so the step short-circuits with a skip
result instead. -/
theorem device_delegation_counterexample :
    dstepC4.execution_target = ExecTarget.device ∧
    (_execute_step envNoTools (ExecutorState.mk ["k2"] 0 []) dstepC4).fst.success = true ∧
    (_execute_step envNoTools (ExecutorState.mk ["k2"] 0 []) dstepC4).fst.result =
      some [("skipped", Value.vBool true)] ∧
    (_execute_step envNoTools (ExecutorState.mk ["k2"] 0 []) dstepC4).fst.device_action = none :=
  ⟨rfl, rfl, rfl, rfl⟩

/-- Claim C4 (amended): a device-surface step whose idempotency key is not
already executed never invokes execute on any tool (the invocation trace is
unchanged) and always and only produces a DeviceAction carrying the step
args and idempotency key; the key is marked executed. -/
theorem device_surface_delegation (env : ExecEnv) (st : ExecutorState) (step : ActionStep)
    (hdev : step.execution_target = ExecTarget.device)
    (hkey : step.idempotency_key ∉ st.executed_keys) :
    _execute_step env st step =
      ({ step := step, success := true,
         device_action := some { action_id := env.uuid4 st.uuidCount,
                                 tool_name := step.tool_name,
                                 args := step.args,
                                 idempotency_key := step.idempotency_key } },
       { st with executed_keys := st.executed_keys ++ [step.idempotency_key],
                 uuidCount := st.uuidCount + 1 }) ∧
    (_execute_step env st step).snd.invoked = st.invoked ∧
    step.idempotency_key ∈ (_execute_step env st step).snd.executed_keys := by
  have hmain : _execute_step env st step =
      ({ step := step, success := true,
         device_action := some { action_id := env.uuid4 st.uuidCount,
                                 tool_name := step.tool_name,
                                 args := step.args,
                                 idempotency_key := step.idempotency_key } },
       { st with executed_keys := st.executed_keys ++ [step.idempotency_key],
                 uuidCount := st.uuidCount + 1 }) := by
    simp [_execute_step, hkey, hdev, _build_device_action]
  refine ⟨hmain, ?_, ?_⟩
  · rw [hmain]
  · rw [hmain]
    simp

/-- Claim C4 (amended) witness: a fresh-key device step yields exactly the
delegation DeviceAction. -/
theorem device_surface_delegation_witness :
    dstepC4.execution_target = ExecTarget.device ∧
    dstepC4.idempotency_key ∉ stFresh.executed_keys ∧
    _execute_step envNoTools stFresh dstepC4 =
      ({ step := dstepC4, success := true,
         device_action := some { action_id := "uuid0",
                                 tool_name := "ios_eventkit.create_event",
                                 args := [("title", Value.vStr "Dentist")],
                                 idempotency_key := "k2" } },
       { executed_keys := ["k2"], uuidCount := 1, invoked := [] }) :=
  ⟨rfl, by decide, ((device_surface_delegation envNoTools stFresh dstepC4 rfl (by decide)).1)⟩

/-- Claim C10: a device-surface step always yields success without consulting
the tool registry: the outcome is an idempotent skip or a DeviceAction, and
the result is identical under any other registry with the same uuid source —
so a device step naming an unregistered tool still succeeds. -/
theorem device_step_never_fails (env env2 : ExecEnv) (st : ExecutorState) (step : ActionStep)
    (hdev : step.execution_target = ExecTarget.device)
    (huuid : env.uuid4 = env2.uuid4) :
    (_execute_step env st step).fst.success = true ∧
    ((_execute_step env st step).fst.result = some [("skipped", Value.vBool true)] ∨
     (_execute_step env st step).fst.device_action =
       some { action_id := env.uuid4 st.uuidCount, tool_name := step.tool_name,
              args := step.args, idempotency_key := step.idempotency_key }) ∧
    _execute_step env st step = _execute_step env2 st step := by
  by_cases hk : step.idempotency_key ∈ st.executed_keys
  · simp [_execute_step, hk]
  · simp [_execute_step, hk, hdev, _build_device_action, huuid]

/-- Claim C10 witness: a device step naming a tool that is registered nowhere
is still delegated as a successful DeviceAction. -/
theorem device_step_never_fails_witness :
    envNoTools.get_tool dstepC4.tool_name = none ∧
    dstepC4.execution_target = ExecTarget.device ∧
    (_execute_step envNoTools stFresh dstepC4).fst.success = true ∧
    ((_execute_step envNoTools stFresh dstepC4).fst.result = some [("skipped", Value.vBool true)] ∨
     (_execute_step envNoTools stFresh dstepC4).fst.device_action =
       some { action_id := envNoTools.uuid4 stFresh.uuidCount,
              tool_name := dstepC4.tool_name, args := dstepC4.args,
              idempotency_key := dstepC4.idempotency_key }) :=
  ⟨rfl, rfl, (device_step_never_fails envNoTools envNoTools stFresh dstepC4 rfl rfl).1,
   (device_step_never_fails envNoTools envNoTools stFresh dstepC4 rfl rfl).2.1⟩

/-- Claim C5: the confirm endpoint error contract — a missing pending entry
yields NotFound (404), an entry owned by a different user yields Forbidden
(403), and only the owning user proceeds to the execute-confirmed pass. -/
theorem confirm_error_contract (env : ExecEnv) (st : ExecutorState) (store : PendingStore)
    (plan_id caller_id : String) :
    (store plan_id = none →
      (confirm_plan env st store plan_id caller_id).fst =
        Except.error HTTPError.notFound404) ∧
    (∀ entry : PendingEntry, store plan_id = some entry → entry.owner_id ≠ caller_id →
      (confirm_plan env st store plan_id caller_id).fst =
        Except.error HTTPError.forbidden403) ∧
    (∀ entry : PendingEntry, store plan_id = some entry → entry.owner_id = caller_id →
      (confirm_plan env st store plan_id caller_id).fst =
        Except.ok (execute_confirmed_plan env st entry.plan)) := by
  refine ⟨fun hnone => ?_, fun entry hsome hneq => ?_, fun entry hsome heq => ?_⟩
  · simp [confirm_plan, popPending, hnone]
  · simp [confirm_plan, popPending, hsome, hneq]
  · simp [confirm_plan, popPending, hsome, heq]

/-- Fixture: a pending plan owned by user "alice" under plan_id "p1". -/
def entryC5 : PendingEntry :=
  { plan := { plan_id := "p1", user_intent := "delete the dentist event",
              steps := [] },
    owner_id := "alice", session_messages := [] }

/-- Fixture: a pending-plan store holding exactly entryC5. -/
def storeC5 : PendingStore := fun k => if k = "p1" then some entryC5 else none

/-- Claim C5 witness: confirming "p1" as "mallory" is Forbidden; confirming
the absent "p2" is NotFound; confirming "p1" as "alice" executes the plan. -/
theorem confirm_error_contract_witness :
    (confirm_plan envNoTools stFresh storeC5 "p1" "mallory").fst =
      Except.error HTTPError.forbidden403 ∧
    (confirm_plan envNoTools stFresh storeC5 "p2" "alice").fst =
      Except.error HTTPError.notFound404 ∧
    (confirm_plan envNoTools stFresh storeC5 "p1" "alice").fst =
      Except.ok (execute_confirmed_plan envNoTools stFresh entryC5.plan) :=
  ⟨(confirm_error_contract envNoTools stFresh storeC5 "p1" "mallory").2.1 entryC5 rfl
      (by decide),
   (confirm_error_contract envNoTools stFresh storeC5 "p2" "alice").1 rfl,
   (confirm_error_contract envNoTools stFresh storeC5 "p1" "alice").2.2 entryC5 rfl rfl⟩

/-- Claim C9: the pending entry is popped before the ownership check, so a
Forbidden confirm attempt by a non-owning user still destroys the entry, and
a subsequent confirm of the same plan_id by the owning user gets NotFound. -/
theorem confirm_forbidden_destroys_entry (env : ExecEnv) (st : ExecutorState)
    (store : PendingStore) (plan_id caller_id : String) (entry : PendingEntry)
    (hentry : store plan_id = some entry)
    (hneq : entry.owner_id ≠ caller_id) :
    (confirm_plan env st store plan_id caller_id).fst =
      Except.error HTTPError.forbidden403 ∧
    (confirm_plan env st store plan_id caller_id).snd plan_id = none ∧
    (confirm_plan env st ((confirm_plan env st store plan_id caller_id).snd)
        plan_id entry.owner_id).fst = Except.error HTTPError.notFound404 := by
  have hpop : (confirm_plan env st store plan_id caller_id).snd plan_id = none := by
    simp [confirm_plan, popPending, hentry, hneq]
  refine ⟨?_, hpop, ?_⟩
  · simp [confirm_plan, popPending, hentry, hneq]
  · generalize hS : (confirm_plan env st store plan_id caller_id).snd = S2 at hpop
    simp [confirm_plan, popPending, hpop]

/-- Claim C9 witness: after the Forbidden attempt by "mallory", the owner
"alice" gets NotFound for the same plan_id. -/
theorem confirm_forbidden_destroys_entry_witness :
    storeC5 "p1" = some entryC5 ∧
    (confirm_plan envNoTools stFresh storeC5 "p1" "mallory").fst =
      Except.error HTTPError.forbidden403 ∧
    (confirm_plan envNoTools stFresh storeC5 "p1" "mallory").snd "p1" = none ∧
    (confirm_plan envNoTools stFresh
        ((confirm_plan envNoTools stFresh storeC5 "p1" "mallory").snd) "p1" "alice").fst =
      Except.error HTTPError.notFound404 :=
  ⟨rfl,
   (confirm_forbidden_destroys_entry envNoTools stFresh storeC5 "p1" "mallory" entryC5
      rfl (by decide)).1,
   (confirm_forbidden_destroys_entry envNoTools stFresh storeC5 "p1" "mallory" entryC5
      rfl (by decide)).2.1,
   (confirm_forbidden_destroys_entry envNoTools stFresh storeC5 "p1" "mallory" entryC5
      rfl (by decide)).2.2⟩

/-- Claim C8: the dot-to-separator substitution applied when sending tool
specs to the LLM is undone exactly by the restoring direction: for every
registered tool name, the round trip through the API-safe name is the
identity. -/
theorem tool_name_round_trip :
    ∀ name ∈ registeredToolNames, _from_api_name (_to_api_name name) = name := by
  decide

/-- Claim C8 witness: the round trip at one concrete registered name. -/
theorem tool_name_round_trip_witness :
    "google_calendar.create_event" ∈ registeredToolNames ∧
    _from_api_name (_to_api_name "google_calendar.create_event") =
      "google_calendar.create_event" :=
  ⟨by decide, tool_name_round_trip "google_calendar.create_event" (by decide)⟩

/-- Concatenation of two execution results (helper for loop reasoning). -/
def mergeResult (r s : ExecutionResult) : ExecutionResult :=
  { step_results := r.step_results ++ s.step_results,
    device_actions := r.device_actions ++ s.device_actions,
    all_succeeded := r.all_succeeded && s.all_succeeded }

theorem mergeResult_empty_right (r : ExecutionResult) : mergeResult r {} = r := by
  cases r; simp [mergeResult]

theorem mergeResult_empty_left (s : ExecutionResult) : mergeResult {} s = s := by
  cases s; simp [mergeResult]

theorem add_merge (r s : ExecutionResult) (sr : StepResult) :
    mergeResult r (s.add sr) = (mergeResult r s).add sr := by
  cases r; cases s
  cases hs : sr.success <;>
    simp [mergeResult, ExecutionResult.add, hs, List.append_assoc]

theorem mergeResult_assoc (r s t : ExecutionResult) :
    mergeResult (mergeResult r s) t = mergeResult r (mergeResult s t) := by
  simp [mergeResult, List.append_assoc, Bool.and_assoc]

theorem mergeResult_add_single (r : ExecutionResult) (sr : StepResult) :
    mergeResult r (ExecutionResult.add {} sr) = r.add sr := by
  rw [add_merge, mergeResult_empty_right]

/-- Running the step loop from an accumulated result equals running it from
the empty result and concatenating. -/
theorem executeSteps_acc (env : ExecEnv) (b : Bool) (steps : List ActionStep) :
    ∀ (st : ExecutorState) (r : ExecutionResult),
      executeSteps env b st r steps =
        (mergeResult r (executeSteps env b st {} steps).fst,
         (executeSteps env b st {} steps).snd) := by
  induction steps with
  | nil => intro st r; simp [executeSteps, mergeResult_empty_right]
  | cons step rest ih =>
    intro st r
    by_cases hskip : (b && step.requires_confirmation) = true
    · simp only [executeSteps, hskip, if_true]
      exact ih st r
    · cases hsucc : (_execute_step env st step).fst.success
      · simp [executeSteps, hskip, hsucc, mergeResult_add_single]
      · rw [show executeSteps env b st r (step :: rest) =
              executeSteps env b (_execute_step env st step).snd
                (r.add (_execute_step env st step).fst) rest by
            simp [executeSteps, hskip, hsucc]]
        rw [show executeSteps env b st {} (step :: rest) =
              executeSteps env b (_execute_step env st step).snd
                (ExecutionResult.add {} (_execute_step env st step).fst) rest by
            simp [executeSteps, hskip, hsucc]]
        rw [ih ((_execute_step env st step).snd) (r.add (_execute_step env st step).fst),
            ih ((_execute_step env st step).snd)
              (ExecutionResult.add {} (_execute_step env st step).fst)]
        simp [← mergeResult_assoc, mergeResult_add_single]

/-- A fully successful confirmed-pass run produced one StepResult per step. -/
theorem executeSteps_ok_length (env : ExecEnv) (steps : List ActionStep) :
    ∀ st, (executeSteps env false st {} steps).fst.all_succeeded = true →
      (executeSteps env false st {} steps).fst.step_results.length = steps.length := by
  induction steps with
  | nil => intro st _; simp [executeSteps]
  | cons step rest ih =>
    intro st h
    cases hsucc : (_execute_step env st step).fst.success
    · exfalso
      simp [executeSteps, hsucc, ExecutionResult.add] at h
    · rw [show (executeSteps env false st {} (step :: rest)) =
          (executeSteps env false ((_execute_step env st step).snd)
            (ExecutionResult.add {} (_execute_step env st step).fst) rest) by
            simp [executeSteps, hsucc]] at h ⊢
      rw [executeSteps_acc] at h ⊢
      simp [mergeResult, ExecutionResult.add, hsucc] at h ⊢
      exact ih _ h

/-- A fully successful confirmed-pass run over a prefix composes with the
run over the remaining steps. -/
theorem executeSteps_append_ok (env : ExecEnv) (pre : List ActionStep) :
    ∀ (ys : List ActionStep) (st : ExecutorState),
      (executeSteps env false st {} pre).fst.all_succeeded = true →
      executeSteps env false st {} (pre ++ ys) =
        (mergeResult (executeSteps env false st {} pre).fst
           (executeSteps env false (executeSteps env false st {} pre).snd {} ys).fst,
         (executeSteps env false (executeSteps env false st {} pre).snd {} ys).snd) := by
  induction pre with
  | nil => intro ys st _; simp [executeSteps, mergeResult_empty_left]
  | cons step rest ih =>
    intro ys st h
    cases hsucc : (_execute_step env st step).fst.success
    · exfalso
      simp [executeSteps, hsucc, ExecutionResult.add] at h
    · have hunfold : ∀ tail, executeSteps env false st {} (step :: tail) =
          executeSteps env false ((_execute_step env st step).snd)
            (ExecutionResult.add {} (_execute_step env st step).fst) tail := by
        intro tail; simp [executeSteps, hsucc]
      rw [hunfold rest] at h
      rw [executeSteps_acc] at h
      have hrest : (executeSteps env false ((_execute_step env st step).snd) {} rest).fst.all_succeeded = true := by
        simp [mergeResult, ExecutionResult.add, hsucc] at h
        exact h
      rw [show (step :: rest) ++ ys = step :: (rest ++ ys) from rfl]
      rw [hunfold (rest ++ ys), hunfold rest]
      rw [executeSteps_acc env false (rest ++ ys), executeSteps_acc env false rest]
      rw [ih ys ((_execute_step env st step).snd) hrest]
      rw [mergeResult_assoc]

/-- When no step requires confirmation, the execute-now pass and the
execute-confirmed pass coincide. -/
theorem executeSteps_no_confirm (env : ExecEnv) (steps : List ActionStep) :
    ∀ st r, (∀ s ∈ steps, s.requires_confirmation = false) →
      executeSteps env true st r steps = executeSteps env false st r steps := by
  induction steps with
  | nil => intro st r _; rfl
  | cons step rest ih =>
    intro st r h
    have h0 : step.requires_confirmation = false := h step (by simp)
    have hr : ∀ s ∈ rest, s.requires_confirmation = false := fun s hs => h s (by simp [hs])
    cases hsucc : (_execute_step env st step).fst.success <;>
      simp [executeSteps, h0, hsucc, ih _ _ hr]

/-- Claim C1: stop on first failure. For a plan whose steps are a fully
successful prefix, then a failing step, then any remaining steps, the
execute-confirmed pass returns exactly the prefix results plus the failing
StepResult, with all_succeeded false, and the executor state is the state
right after the failing step — the remaining steps are never processed and
their tools never invoked. When no step requires confirmation the
execute-now pass behaves identically. -/
theorem executor_stops_at_first_failure (env : ExecEnv) (st : ExecutorState)
    (plan : ActionPlan) (pre post : List ActionStep) (failing : ActionStep)
    (hsteps : plan.steps = pre ++ failing :: post)
    (hpre : (executeSteps env false st {} pre).fst.all_succeeded = true)
    (hfail : (_execute_step env (executeSteps env false st {} pre).snd failing).fst.success
      = false) :
    execute_confirmed_plan env st plan =
      ((executeSteps env false st {} pre).fst.add
         (_execute_step env (executeSteps env false st {} pre).snd failing).fst,
       (_execute_step env (executeSteps env false st {} pre).snd failing).snd) ∧
    (execute_confirmed_plan env st plan).fst.step_results.length = pre.length + 1 ∧
    (execute_confirmed_plan env st plan).fst.all_succeeded = false ∧
    ((∀ s ∈ plan.steps, s.requires_confirmation = false) →
      execute_plan env st plan = execute_confirmed_plan env st plan) := by
  have hmain : execute_confirmed_plan env st plan =
      ((executeSteps env false st {} pre).fst.add
         (_execute_step env (executeSteps env false st {} pre).snd failing).fst,
       (_execute_step env (executeSteps env false st {} pre).snd failing).snd) := by
    unfold execute_confirmed_plan
    rw [hsteps]
    rw [executeSteps_append_ok env pre (failing :: post) st hpre]
    have htail : executeSteps env false (executeSteps env false st {} pre).snd {}
        (failing :: post) =
        (ExecutionResult.add {}
           (_execute_step env (executeSteps env false st {} pre).snd failing).fst,
         (_execute_step env (executeSteps env false st {} pre).snd failing).snd) := by
      simp [executeSteps, hfail]
    rw [htail, mergeResult_add_single]
  refine ⟨hmain, ?_, ?_, ?_⟩
  · rw [hmain]
    simp [ExecutionResult.add, executeSteps_ok_length env pre st hpre]
  · rw [hmain]
    simp [ExecutionResult.add, hfail]
  · intro hnc
    unfold execute_plan execute_confirmed_plan
    exact executeSteps_no_confirm env plan.steps st {} hnc

/-- Fixture: step 1 of the C1 witness plan, a device step that succeeds. -/
def s1C1 : ActionStep :=
  { tool_name := "ios_eventkit.create_event", args := [("title", Value.vStr "Lunch")],
    idempotency_key := "kA", execution_target := ExecTarget.device }

/-- Fixture: step 2 of the C1 witness plan, a server step naming an
unregistered tool, which fails. -/
def s2C1 : ActionStep :=
  { tool_name := "mystery.op", args := [], idempotency_key := "kB" }

/-- Fixture: step 3 of the C1 witness plan, never reached. -/
def s3C1 : ActionStep :=
  { tool_name := "google_calendar.list_events", args := [], idempotency_key := "kC" }

/-- Fixture: the 3-step C1 witness plan whose step 2 fails. -/
def planC1 : ActionPlan :=
  { plan_id := "plan1", user_intent := "three steps", steps := [s1C1, s2C1, s3C1] }

/-- Claim C1 witness: on the concrete 3-step plan whose step 2 fails, the
result has exactly the 2 StepResults for steps 1 and 2, all_succeeded is
false, and step 3 is never attempted (final state is the post-step-2 state). -/
theorem executor_stops_at_first_failure_witness :
    execute_confirmed_plan envNoTools stFresh planC1 =
      ({ step_results :=
           [{ step := s1C1, success := true,
              device_action := some { action_id := "uuid0",
                                      tool_name := "ios_eventkit.create_event",
                                      args := [("title", Value.vStr "Lunch")],
                                      idempotency_key := "kA" } },
            { step := s2C1, success := false, error := some "Unknown tool: mystery.op" }],
         device_actions := [{ action_id := "uuid0",
                              tool_name := "ios_eventkit.create_event",
                              args := [("title", Value.vStr "Lunch")],
                              idempotency_key := "kA" }],
         all_succeeded := false },
       { executed_keys := ["kA"], uuidCount := 1, invoked := [] }) ∧
    (execute_confirmed_plan envNoTools stFresh planC1).fst.step_results.length = 2 ∧
    (execute_confirmed_plan envNoTools stFresh planC1).fst.all_succeeded = false ∧
    execute_plan envNoTools stFresh planC1 = execute_confirmed_plan envNoTools stFresh planC1 := by
  have H := executor_stops_at_first_failure envNoTools stFresh planC1
    [s1C1] [s3C1] s2C1 rfl (by rfl) (by rfl)
  exact ⟨H.1.trans (by rfl), H.2.1, H.2.2.1, H.2.2.2 (by decide)⟩

@[simp] theorem upgrade_risk_tool_name (s : ActionStep) (t : RiskLevel) :
    (_upgrade_risk s t).tool_name = s.tool_name := by
  unfold _upgrade_risk; split <;> rfl

@[simp] theorem upgrade_risk_args (s : ActionStep) (t : RiskLevel) :
    (_upgrade_risk s t).args = s.args := by
  unfold _upgrade_risk; split <;> rfl

@[simp] theorem upgrade_risk_requires (s : ActionStep) (t : RiskLevel) :
    (_upgrade_risk s t).requires_confirmation = s.requires_confirmation := by
  unfold _upgrade_risk; split <;> rfl

@[simp] theorem upgrade_risk_phrase (s : ActionStep) (t : RiskLevel) :
    (_upgrade_risk s t).confirmation_phrase = s.confirmation_phrase := by
  unfold _upgrade_risk; split <;> rfl

theorem upgrade_risk_mono (s : ActionStep) (t : RiskLevel) :
    riskOrder s.risk_level ≤ riskOrder (_upgrade_risk s t).risk_level := by
  unfold _upgrade_risk
  split
  next h => simp; omega
  next => exact Nat.le_refl _

theorem upgrade_risk_target_le (s : ActionStep) (t : RiskLevel) :
    riskOrder t ≤ riskOrder (_upgrade_risk s t).risk_level := by
  unfold _upgrade_risk
  split
  next => simp
  next h => simpa using Nat.le_of_not_lt h

theorem upgrade_risk_eq_of_le (s : ActionStep) (t : RiskLevel)
    (h : riskOrder t ≤ riskOrder s.risk_level) : _upgrade_risk s t = s := by
  unfold _upgrade_risk
  split
  next hlt => exact absurd hlt (Nat.not_lt.mpr h)
  next => rfl

@[simp] theorem setDefaultPhrase_tool_name (s : ActionStep) (p : String) :
    (setDefaultPhrase s p).tool_name = s.tool_name := by
  unfold setDefaultPhrase; split <;> rfl

@[simp] theorem setDefaultPhrase_args (s : ActionStep) (p : String) :
    (setDefaultPhrase s p).args = s.args := by
  unfold setDefaultPhrase; split <;> rfl

@[simp] theorem setDefaultPhrase_risk (s : ActionStep) (p : String) :
    (setDefaultPhrase s p).risk_level = s.risk_level := by
  unfold setDefaultPhrase; split <;> rfl

@[simp] theorem setDefaultPhrase_requires (s : ActionStep) (p : String) :
    (setDefaultPhrase s p).requires_confirmation = s.requires_confirmation := by
  unfold setDefaultPhrase; split <;> rfl

@[simp] theorem escalateStep_tool_name (s : ActionStep) (t : RiskLevel) (p : String) :
    (escalateStep s t p).tool_name = s.tool_name := by
  unfold escalateStep; simp

@[simp] theorem escalateStep_args (s : ActionStep) (t : RiskLevel) (p : String) :
    (escalateStep s t p).args = s.args := by
  unfold escalateStep; simp

@[simp] theorem escalateStep_requires (s : ActionStep) (t : RiskLevel) (p : String) :
    (escalateStep s t p).requires_confirmation = true := by
  unfold escalateStep; simp

theorem escalateStep_risk_mono (s : ActionStep) (t : RiskLevel) (p : String) :
    riskOrder s.risk_level ≤ riskOrder (escalateStep s t p).risk_level := by
  unfold escalateStep
  simpa using upgrade_risk_mono s t

theorem escalateStep_risk_target (s : ActionStep) (t : RiskLevel) (p : String) :
    riskOrder t ≤ riskOrder (escalateStep s t p).risk_level := by
  unfold escalateStep
  simpa using upgrade_risk_target_le s t

theorem escalateStep_phrase_set (s : ActionStep) (t : RiskLevel) (p : String)
    (hp : (p == "") = false) :
    phraseFalsy (escalateStep s t p).confirmation_phrase = false := by
  unfold escalateStep setDefaultPhrase
  split
  next => simpa [phraseFalsy] using hp
  next h => simpa using h

/-- The step flags that make every policy escalation with target `t` a
no-op: risk already at or above `t`, confirmation already forced, and a
non-falsy confirmation phrase. -/
def StableFor (s : ActionStep) (t : RiskLevel) : Prop :=
  riskOrder t ≤ riskOrder s.risk_level ∧ s.requires_confirmation = true ∧
  phraseFalsy s.confirmation_phrase = false

theorem set_requires_true_eq (s : ActionStep) (h : s.requires_confirmation = true) :
    ({ s with requires_confirmation := true } : ActionStep) = s := by
  cases s; simp_all

theorem escalateStep_stable (s : ActionStep) (t : RiskLevel) (p : String)
    (hp : (p == "") = false) : StableFor (escalateStep s t p) t :=
  ⟨escalateStep_risk_target s t p, escalateStep_requires s t p,
   escalateStep_phrase_set s t p hp⟩

theorem escalateStep_preserves_stable (s : ActionStep) (t u : RiskLevel) (p : String)
    (h : StableFor s u) : StableFor (escalateStep s t p) u := by
  refine ⟨Nat.le_trans h.1 (escalateStep_risk_mono s t p), escalateStep_requires s t p, ?_⟩
  unfold escalateStep setDefaultPhrase
  split
  next hph =>
    exfalso
    have hcontra : phraseFalsy s.confirmation_phrase = true := by simpa using hph
    rw [h.2.2] at hcontra
    exact Bool.false_ne_true hcontra
  next hph => simpa using hph

theorem escalateStep_idem (s : ActionStep) (t : RiskLevel) (p : String)
    (h : StableFor s t) : escalateStep s t p = s := by
  unfold escalateStep
  rw [upgrade_risk_eq_of_le s t h.1, set_requires_true_eq s h.2.1]
  unfold setDefaultPhrase
  rw [h.2.2]
  simp

theorem attendeePhrase_ne_empty (a : Value) (p : String)
    (h : attendeePhrase a = Except.ok p) : (p == "") = false := by
  unfold attendeePhrase at h
  cases hj : joinFirstThree a with
  | error e => rw [hj] at h; cases h
  | ok names =>
    rw [hj] at h
    cases hl : pyLen a with
    | error e => rw [hl] at h; cases h
    | ok n =>
      rw [hl] at h
      simp only [Except.ok.injEq] at h
      rw [beq_eq_false_iff_ne]
      intro hempty
      rw [← h] at hempty
      have hlen := congrArg String.length hempty
      rw [String.length_append, String.length_append, String.length_append] at hlen
      have h17 : ("This will invite " : String).length = 17 := rfl
      have h0 : ("" : String).length = 0 := rfl
      omega

/-- Characterization of `escalateAttendees` with the inner let unfolded. -/
theorem escalateAttendees_eq (s : ActionStep) (a : Value) :
    escalateAttendees s a =
      (if phraseFalsy (_upgrade_risk s RiskLevel.medium).confirmation_phrase = true then
        match attendeePhrase a with
        | Except.error e => Except.error e
        | Except.ok p =>
            Except.ok { _upgrade_risk s RiskLevel.medium with
                        requires_confirmation := true, confirmation_phrase := some p }
      else
        Except.ok { _upgrade_risk s RiskLevel.medium with requires_confirmation := true }) :=
  rfl

theorem escalateAttendees_ok_elim (s : ActionStep) (a : Value) (s2 : ActionStep)
    (h : escalateAttendees s a = Except.ok s2) :
    s2.tool_name = s.tool_name ∧ s2.args = s.args ∧
    riskOrder s.risk_level ≤ riskOrder s2.risk_level ∧
    StableFor s2 RiskLevel.medium := by
  rw [escalateAttendees_eq] at h
  by_cases hph : phraseFalsy (_upgrade_risk s RiskLevel.medium).confirmation_phrase = true
  · rw [if_pos hph] at h
    cases hap : attendeePhrase a with
    | error e => rw [hap] at h; cases h
    | ok p =>
      rw [hap] at h
      cases h
      refine ⟨by simp, by simp, by simpa using upgrade_risk_mono s RiskLevel.medium,
        ⟨by simpa using upgrade_risk_target_le s RiskLevel.medium, by simp, ?_⟩⟩
      simpa [phraseFalsy] using attendeePhrase_ne_empty a p hap
  · rw [if_neg hph] at h
    cases h
    refine ⟨by simp, by simp, by simpa using upgrade_risk_mono s RiskLevel.medium,
      ⟨by simpa using upgrade_risk_target_le s RiskLevel.medium, by simp, ?_⟩⟩
    simpa using hph

theorem escalateAttendees_preserves_stable (s : ActionStep) (a : Value) (s2 : ActionStep)
    (u : RiskLevel) (h : escalateAttendees s a = Except.ok s2) (hs : StableFor s u) :
    StableFor s2 u :=
  ⟨Nat.le_trans hs.1 (escalateAttendees_ok_elim s a s2 h).2.2.1,
   (escalateAttendees_ok_elim s a s2 h).2.2.2.2.1,
   (escalateAttendees_ok_elim s a s2 h).2.2.2.2.2⟩

theorem escalateAttendees_idem (s : ActionStep) (a : Value)
    (h : StableFor s RiskLevel.medium) : escalateAttendees s a = Except.ok s := by
  rw [escalateAttendees_eq]
  rw [upgrade_risk_eq_of_le s RiskLevel.medium h.1]
  rw [h.2.2]
  simp [set_requires_true_eq s h.2.1]

theorem destructiveBlock_tool_name (s : ActionStep) :
    (destructiveBlock s).tool_name = s.tool_name := by
  unfold destructiveBlock; split <;> simp

theorem destructiveBlock_args (s : ActionStep) :
    (destructiveBlock s).args = s.args := by
  unfold destructiveBlock; split <;> simp

theorem destructiveBlock_risk_mono (s : ActionStep) :
    riskOrder s.risk_level ≤ riskOrder (destructiveBlock s).risk_level := by
  unfold destructiveBlock
  split
  · exact escalateStep_risk_mono _ _ _
  · exact Nat.le_refl _

theorem destructiveBlock_requires (s : ActionStep) :
    s.requires_confirmation = true → (destructiveBlock s).requires_confirmation = true := by
  unfold destructiveBlock
  split
  · intro _; simp
  · exact id

theorem destructiveBlock_high (s : ActionStep) (h : s.tool_name ∈ DESTRUCTIVE_TOOLS) :
    destructiveBlock s = escalateStep s RiskLevel.high
      "This will permanently delete an event. Are you sure?" := by
  unfold destructiveBlock; rw [if_pos h]

theorem destructiveBlock_not_destr (s : ActionStep) (h : s.tool_name ∉ DESTRUCTIVE_TOOLS) :
    destructiveBlock s = s := by
  unfold destructiveBlock; rw [if_neg h]

/-- Characterization of `attendeeBlock` with the inner lets unfolded. -/
theorem attendeeBlock_eq (s : ActionStep) :
    attendeeBlock s =
      (if s.tool_name ∈ ATTENDEE_TOOLS then
        match (if pyTruthy (dictGetD s.args "attendees" (Value.vList [])) = true
               then escalateAttendees s (dictGetD s.args "attendees" (Value.vList []))
               else Except.ok s) with
        | Except.error e => Except.error e
        | Except.ok step2 =>
            Except.ok
              (if sendUpdatesFlag (dictGetD s.args "send_updates" (Value.vStr "none")) = true
               then escalateStep step2 RiskLevel.medium
                 "This will send notifications to attendees. Confirm?"
               else step2)
      else Except.ok s) :=
  rfl

theorem attendeeBlock_ok_elim (s s2 : ActionStep) (h : attendeeBlock s = Except.ok s2) :
    s2.tool_name = s.tool_name ∧ s2.args = s.args ∧
    riskOrder s.risk_level ≤ riskOrder s2.risk_level ∧
    (s.requires_confirmation = true → s2.requires_confirmation = true) ∧
    (∀ u, StableFor s u → StableFor s2 u) := by
  rw [attendeeBlock_eq] at h
  by_cases ha : s.tool_name ∈ ATTENDEE_TOOLS
  · rw [if_pos ha] at h
    by_cases ht : pyTruthy (dictGetD s.args "attendees" (Value.vList [])) = true
    · rw [if_pos ht] at h
      cases hEA : escalateAttendees s (dictGetD s.args "attendees" (Value.vList [])) with
      | error e => rw [hEA] at h; cases h
      | ok s3 =>
        rw [hEA] at h
        simp only [Except.ok.injEq] at h
        have E := escalateAttendees_ok_elim _ _ _ hEA
        by_cases hsu : sendUpdatesFlag (dictGetD s.args "send_updates" (Value.vStr "none")) = true
        · rw [if_pos hsu] at h
          subst h
          refine ⟨by simp [E.1], by simp [E.2.1],
            Nat.le_trans E.2.2.1 (escalateStep_risk_mono _ _ _),
            fun _ => by simp,
            fun u hu => escalateStep_preserves_stable _ _ _ _
              (escalateAttendees_preserves_stable _ _ _ _ hEA hu)⟩
        · rw [if_neg hsu] at h
          subst h
          exact ⟨E.1, E.2.1, E.2.2.1, fun _ => E.2.2.2.2.1,
            fun u hu => escalateAttendees_preserves_stable _ _ _ _ hEA hu⟩
    · rw [if_neg ht] at h
      simp only [Except.ok.injEq] at h
      by_cases hsu : sendUpdatesFlag (dictGetD s.args "send_updates" (Value.vStr "none")) = true
      · rw [if_pos hsu] at h
        subst h
        refine ⟨by simp, by simp, escalateStep_risk_mono _ _ _, fun _ => by simp,
          fun u hu => escalateStep_preserves_stable _ _ _ _ hu⟩
      · rw [if_neg hsu] at h
        subst h
        exact ⟨rfl, rfl, Nat.le_refl _, id, fun _ => id⟩
  · rw [if_neg ha] at h
    cases h
    exact ⟨rfl, rfl, Nat.le_refl _, id, fun _ => id⟩

theorem attendeeBlock_stable_of_branch (s s2 : ActionStep)
    (h : attendeeBlock s = Except.ok s2)
    (ha : s.tool_name ∈ ATTENDEE_TOOLS)
    (hbranch : pyTruthy (dictGetD s.args "attendees" (Value.vList [])) = true ∨
               sendUpdatesFlag (dictGetD s.args "send_updates" (Value.vStr "none")) = true) :
    StableFor s2 RiskLevel.medium := by
  rw [attendeeBlock_eq] at h
  rw [if_pos ha] at h
  by_cases ht : pyTruthy (dictGetD s.args "attendees" (Value.vList [])) = true
  · rw [if_pos ht] at h
    cases hEA : escalateAttendees s (dictGetD s.args "attendees" (Value.vList [])) with
    | error e => rw [hEA] at h; cases h
    | ok s3 =>
      rw [hEA] at h
      simp only [Except.ok.injEq] at h
      have hs3 := (escalateAttendees_ok_elim _ _ _ hEA).2.2.2
      by_cases hsu : sendUpdatesFlag (dictGetD s.args "send_updates" (Value.vStr "none")) = true
      · rw [if_pos hsu] at h
        subst h
        exact escalateStep_preserves_stable _ _ _ _ hs3
      · rw [if_neg hsu] at h
        subst h
        exact hs3
  · rw [if_neg ht] at h
    simp only [Except.ok.injEq] at h
    have hsu := hbranch.resolve_left ht
    rw [if_pos hsu] at h
    subst h
    exact escalateStep_stable _ _ _ (by decide)

theorem risk_high_of_le (r : RiskLevel) (h : riskOrder RiskLevel.high ≤ riskOrder r) :
    r = RiskLevel.high := by
  cases r <;> first | rfl | simp [riskOrder] at h

theorem apply_step_policy_ok_elim (s s2 : ActionStep)
    (h : _apply_step_policy s = Except.ok s2) :
    s2.tool_name = s.tool_name ∧ s2.args = s.args ∧
    riskOrder s.risk_level ≤ riskOrder s2.risk_level ∧
    (s.requires_confirmation = true → s2.requires_confirmation = true) := by
  unfold _apply_step_policy at h
  have A := attendeeBlock_ok_elim (destructiveBlock s) s2 h
  exact ⟨A.1.trans (destructiveBlock_tool_name s), A.2.1.trans (destructiveBlock_args s),
    Nat.le_trans (destructiveBlock_risk_mono s) A.2.2.1,
    fun hr => A.2.2.2.1 (destructiveBlock_requires s hr)⟩

theorem apply_step_policy_idem (s s2 : ActionStep)
    (h : _apply_step_policy s = Except.ok s2) :
    _apply_step_policy s2 = Except.ok s2 := by
  unfold _apply_step_policy at h ⊢
  have A := attendeeBlock_ok_elim (destructiveBlock s) s2 h
  have htool : s2.tool_name = s.tool_name := A.1.trans (destructiveBlock_tool_name s)
  have hargs : s2.args = s.args := A.2.1.trans (destructiveBlock_args s)
  have hdtool : (destructiveBlock s).tool_name = s.tool_name := destructiveBlock_tool_name s
  have hdargs : (destructiveBlock s).args = s.args := destructiveBlock_args s
  have hdb : destructiveBlock s2 = s2 := by
    by_cases hd : s.tool_name ∈ DESTRUCTIVE_TOOLS
    · have hstab1 : StableFor (destructiveBlock s) RiskLevel.high := by
        rw [destructiveBlock_high s hd]
        exact escalateStep_stable _ _ _ (by decide)
      have hstab2 : StableFor s2 RiskLevel.high := A.2.2.2.2 RiskLevel.high hstab1
      rw [destructiveBlock_high s2 (by rw [htool]; exact hd)]
      exact escalateStep_idem _ _ _ hstab2
    · exact destructiveBlock_not_destr s2 (by rw [htool]; exact hd)
  rw [hdb]
  by_cases ha : s.tool_name ∈ ATTENDEE_TOOLS
  · rw [attendeeBlock_eq]
    rw [if_pos (show s2.tool_name ∈ ATTENDEE_TOOLS by rw [htool]; exact ha)]
    have hatt : dictGetD s2.args "attendees" (Value.vList []) =
        dictGetD s.args "attendees" (Value.vList []) := by rw [hargs]
    have hsu2 : dictGetD s2.args "send_updates" (Value.vStr "none") =
        dictGetD s.args "send_updates" (Value.vStr "none") := by rw [hargs]
    rw [hatt, hsu2]
    by_cases ht : pyTruthy (dictGetD s.args "attendees" (Value.vList [])) = true
    · have hstab : StableFor s2 RiskLevel.medium := by
        apply attendeeBlock_stable_of_branch (destructiveBlock s) s2 h
        · rw [hdtool]; exact ha
        · left; rw [hdargs]; exact ht
      rw [if_pos ht]
      rw [escalateAttendees_idem s2 _ hstab]
      show Except.ok (if sendUpdatesFlag (dictGetD s.args "send_updates" (Value.vStr "none")) = true
          then escalateStep s2 RiskLevel.medium "This will send notifications to attendees. Confirm?"
          else s2) = Except.ok s2
      by_cases hsu : sendUpdatesFlag (dictGetD s.args "send_updates" (Value.vStr "none")) = true
      · rw [if_pos hsu, escalateStep_idem _ _ _ hstab]
      · rw [if_neg hsu]
    · rw [if_neg ht]
      show Except.ok (if sendUpdatesFlag (dictGetD s.args "send_updates" (Value.vStr "none")) = true
          then escalateStep s2 RiskLevel.medium "This will send notifications to attendees. Confirm?"
          else s2) = Except.ok s2
      by_cases hsu : sendUpdatesFlag (dictGetD s.args "send_updates" (Value.vStr "none")) = true
      · have hstab : StableFor s2 RiskLevel.medium := by
          apply attendeeBlock_stable_of_branch (destructiveBlock s) s2 h
          · rw [hdtool]; exact ha
          · right; rw [hdargs]; exact hsu
        rw [if_pos hsu, escalateStep_idem _ _ _ hstab]
      · rw [if_neg hsu]
  · rw [attendeeBlock_eq]
    rw [if_neg (show s2.tool_name ∉ ATTENDEE_TOOLS by rw [htool]; exact ha)]

theorem applySteps_forall2 (l : List ActionStep) :
    ∀ l2, applySteps l = Except.ok l2 →
    List.Forall₂ (fun a b : ActionStep =>
      riskOrder a.risk_level ≤ riskOrder b.risk_level ∧
      (a.requires_confirmation = true → b.requires_confirmation = true) ∧
      (a.risk_level = RiskLevel.high → b.risk_level = RiskLevel.high)) l l2 := by
  induction l with
  | nil => intro l2 h; cases h; exact List.Forall₂.nil
  | cons s rest ih =>
    intro l2 h
    unfold applySteps at h
    cases hs : _apply_step_policy s with
    | error e => rw [hs] at h; cases h
    | ok s2 =>
      rw [hs] at h
      cases hr : applySteps rest with
      | error e => rw [hr] at h; cases h
      | ok rest2 =>
        rw [hr] at h
        cases h
        refine List.Forall₂.cons ?_ (ih rest2 hr)
        have M := apply_step_policy_ok_elim s s2 hs
        refine ⟨M.2.2.1, M.2.2.2, fun hh => ?_⟩
        apply risk_high_of_le
        rw [← hh]
        exact M.2.2.1

theorem applySteps_idem (l : List ActionStep) :
    ∀ l2, applySteps l = Except.ok l2 → applySteps l2 = Except.ok l2 := by
  induction l with
  | nil => intro l2 h; cases h; rfl
  | cons s rest ih =>
    intro l2 h
    unfold applySteps at h
    cases hs : _apply_step_policy s with
    | error e => rw [hs] at h; cases h
    | ok s2 =>
      rw [hs] at h
      cases hr : applySteps rest with
      | error e => rw [hr] at h; cases h
      | ok rest2 =>
        rw [hr] at h
        cases h
        unfold applySteps
        rw [apply_step_policy_idem s s2 hs, ih rest2 hr]

/-- Claim C2: risk monotonicity of policy evaluation. For every plan on
which `evaluate` completes, every step is pointwise related to its evaluated
form: the risk level never decreases in the total order low < medium < high,
requires_confirmation is never changed from true to false, and a step
pre-flagged high stays high. -/
theorem policy_risk_monotone (plan : ActionPlan) (pr : PolicyResult)
    (h : evaluate plan = Except.ok pr) :
    List.Forall₂ (fun a b : ActionStep =>
      riskOrder a.risk_level ≤ riskOrder b.risk_level ∧
      (a.requires_confirmation = true → b.requires_confirmation = true) ∧
      (a.risk_level = RiskLevel.high → b.risk_level = RiskLevel.high))
      plan.steps pr.plan.steps := by
  unfold evaluate at h
  cases hs : applySteps plan.steps with
  | error e => rw [hs] at h; cases h
  | ok steps2 =>
    rw [hs] at h
    cases h
    exact applySteps_forall2 plan.steps steps2 hs

/-- Fixture: a one-step plan whose step is pre-flagged high on an attendee
tool — the policy rule for that tool would only assign medium. -/
def wPlanC2 : ActionPlan :=
  { plan_id := "p-c2", user_intent := "invite",
    steps := [{ tool_name := "google_calendar.create_event",
                args := [("attendees", Value.vList [Value.vStr "john"])],
                risk_level := RiskLevel.high,
                idempotency_key := "k-c2" }] }

/-- Fixture: the policy output on wPlanC2 (risk stays high). -/
def wPRC2 : PolicyResult :=
  { plan := { wPlanC2 with
      steps := [{ tool_name := "google_calendar.create_event",
                  args := [("attendees", Value.vList [Value.vStr "john"])],
                  risk_level := RiskLevel.high,
                  requires_confirmation := true,
                  confirmation_phrase := some "This will invite john. Confirm?",
                  idempotency_key := "k-c2" }] } }

/-- Claim C2 witness: the concrete high-flagged attendee step keeps risk
high (not the rule target medium) and its confirmation is forced. -/
theorem policy_risk_monotone_witness :
    evaluate wPlanC2 = Except.ok wPRC2 ∧
    List.Forall₂ (fun a b : ActionStep =>
      riskOrder a.risk_level ≤ riskOrder b.risk_level ∧
      (a.requires_confirmation = true → b.requires_confirmation = true) ∧
      (a.risk_level = RiskLevel.high → b.risk_level = RiskLevel.high))
      wPlanC2.steps wPRC2.plan.steps :=
  ⟨rfl, policy_risk_monotone wPlanC2 wPRC2 rfl⟩

/-- Claim C6: policy evaluation is idempotent. Whenever `evaluate` completes
on a plan, running it again on the evaluated plan returns exactly the same
result — every step keeps the same risk_level, requires_confirmation and
confirmation_phrase. -/
theorem policy_evaluate_idempotent (plan : ActionPlan) (pr : PolicyResult)
    (h : evaluate plan = Except.ok pr) : evaluate pr.plan = Except.ok pr := by
  unfold evaluate at h ⊢
  cases hs : applySteps plan.steps with
  | error e => rw [hs] at h; cases h
  | ok steps2 =>
    rw [hs] at h
    cases h
    rw [show ({ plan with steps := steps2 } : ActionPlan).steps = steps2 from rfl]
    rw [applySteps_idem plan.steps steps2 hs]

/-- Fixture: a one-step attendee plan that policy escalates to medium with
confirmation and a computed phrase. -/
def wPlanC6 : ActionPlan :=
  { plan_id := "p-c6", user_intent := "invite with notifications",
    steps := [{ tool_name := "google_calendar.create_event",
                args := [("attendees", Value.vList [Value.vStr "john"]),
                         ("send_updates", Value.vStr "all")],
                idempotency_key := "k-c6" }] }

/-- Fixture: the policy output on wPlanC6. -/
def wPRC6 : PolicyResult :=
  { plan := { wPlanC6 with
      steps := [{ tool_name := "google_calendar.create_event",
                  args := [("attendees", Value.vList [Value.vStr "john"]),
                           ("send_updates", Value.vStr "all")],
                  risk_level := RiskLevel.medium,
                  requires_confirmation := true,
                  confirmation_phrase := some "This will invite john. Confirm?",
                  idempotency_key := "k-c6" }] } }

/-- Claim C6 witness: evaluating the concrete attendee plan twice yields the
same step flags as evaluating it once. -/
theorem policy_evaluate_idempotent_witness :
    evaluate wPlanC6 = Except.ok wPRC6 ∧
    evaluate wPRC6.plan = Except.ok wPRC6 :=
  ⟨rfl, policy_evaluate_idempotent wPlanC6 wPRC6 rfl⟩

theorem dropToPlainUser_none (xs : List Msg)
    (h : ∀ m ∈ xs, isPlainUserTurn m = false) : dropToPlainUser xs = none := by
  induction xs with
  | nil => rfl
  | cons x rest ih =>
    unfold dropToPlainUser
    rw [h x (by simp)]
    simp only [Bool.false_eq_true, if_false]
    exact ih (fun m hm => h m (by simp [hm]))

theorem dropToPlainUser_first (xs : List Msg) :
    ∀ (i : Nat) (m : Msg), xs[i]? = some m → isPlainUserTurn m = true →
      (∀ (j : Nat) (m2 : Msg), j < i → xs[j]? = some m2 → isPlainUserTurn m2 = false) →
      dropToPlainUser xs = some (xs.drop i) := by
  induction xs with
  | nil => intro i m hm _ _; simp at hm
  | cons x rest ih =>
    intro i m hm hplain hbefore
    cases i with
    | zero =>
      simp only [List.getElem?_cons_zero, Option.some.injEq] at hm
      unfold dropToPlainUser
      rw [← hm] at hplain
      rw [hplain]
      simp
    | succ i2 =>
      have hx : isPlainUserTurn x = false :=
        hbefore 0 x (Nat.succ_pos i2) (by simp)
      unfold dropToPlainUser
      rw [hx]
      simp only [Bool.false_eq_true, if_false]
      rw [List.getElem?_cons_succ] at hm
      exact ih i2 m hm hplain
        (fun j m2 hj hm2 => hbefore (j + 1) m2 (Nat.succ_lt_succ hj)
          (by rw [List.getElem?_cons_succ]; exact hm2))

/-- Claim C7: session trimming. For every message list longer than the
configured maximum (settings.session_max_messages = 50), _trim keeps the
most recent 50 turns and drops everything before the first turn of that
window whose role is user with purely textual content; when no such turn
exists in the window the result is exactly the last 4 turns; and on a
history of 2 x 50 turns in which exactly every 5th turn is plain user text,
the trimmed result starts with a plain user-text turn. -/
theorem session_trim_spec (messages : List Msg)
    (hlong : session_max_messages < messages.length) :
    (∀ (i : Nat) (m : Msg),
        (takeLastPy session_max_messages messages)[i]? = some m →
        isPlainUserTurn m = true →
        (∀ (j : Nat) (m2 : Msg), j < i →
          (takeLastPy session_max_messages messages)[j]? = some m2 →
          isPlainUserTurn m2 = false) →
        _trim session_max_messages messages =
          (takeLastPy session_max_messages messages).drop i) ∧
    ((∀ m ∈ takeLastPy session_max_messages messages, isPlainUserTurn m = false) →
      _trim session_max_messages messages =
        takeLastPy 4 (takeLastPy session_max_messages messages)) ∧
    (messages.length = 2 * session_max_messages →
      messages.map isPlainUserTurn =
        (List.range (2 * session_max_messages)).map (fun i => decide (i % 5 = 4)) →
      ∃ (m : Msg) (rest : List Msg),
        _trim session_max_messages messages = m :: rest ∧ isPlainUserTurn m = true) := by
  have hnotle : ¬(messages.length ≤ session_max_messages) := Nat.not_le.mpr hlong
  refine ⟨?_, ?_, ?_⟩
  · intro i m hm hplain hbefore
    unfold _trim
    rw [if_neg hnotle]
    show (match dropToPlainUser (takeLastPy session_max_messages messages) with
          | some tail => tail
          | none => takeLastPy 4 (takeLastPy session_max_messages messages)) = _
    rw [dropToPlainUser_first (takeLastPy session_max_messages messages) i m hm hplain hbefore]
  · intro hnone
    unfold _trim
    rw [if_neg hnotle]
    show (match dropToPlainUser (takeLastPy session_max_messages messages) with
          | some tail => tail
          | none => takeLastPy 4 (takeLastPy session_max_messages messages)) = _
    rw [dropToPlainUser_none (takeLastPy session_max_messages messages) hnone]
  · intro hlen hpattern
    have hpoint : ∀ (k : Nat) (m : Msg), messages[k]? = some m →
        isPlainUserTurn m = decide (k % 5 = 4) := by
      intro k m hm
      have hk : k < messages.length := (List.getElem?_eq_some.mp hm).1
      have h1 := congrArg (fun l => l[k]?) hpattern
      simp only [List.getElem?_map] at h1
      rw [hm, List.getElem?_range (by rw [← hlen]; exact hk)] at h1
      simpa using h1
    have hwin : takeLastPy session_max_messages messages =
        messages.drop session_max_messages := by
      unfold takeLastPy
      rw [if_neg (by decide : ¬(session_max_messages = 0))]
      rw [hlen]
      norm_num [session_max_messages]
    have h54 : (54 : Nat) < messages.length := by
      rw [hlen]; decide
    have hm54 : messages[54]? = some (messages.get ⟨54, h54⟩) := by
      rw [List.getElem?_eq_getElem h54]; rfl
    have hplain54 : isPlainUserTurn (messages.get ⟨54, h54⟩) = true := by
      rw [hpoint 54 _ hm54]; decide
    have hfirst : _trim session_max_messages messages =
        (takeLastPy session_max_messages messages).drop 4 := by
      unfold _trim
      rw [if_neg hnotle]
      show (match dropToPlainUser (takeLastPy session_max_messages messages) with
            | some tail => tail
            | none => takeLastPy 4 (takeLastPy session_max_messages messages)) = _
      rw [dropToPlainUser_first (takeLastPy session_max_messages messages) 4
        (messages.get ⟨54, h54⟩)
        (by rw [hwin, List.getElem?_drop]
            exact hm54)
        hplain54
        (by intro j m2 hj hm2
            rw [hwin, List.getElem?_drop] at hm2
            rw [hpoint (session_max_messages + j) m2 hm2]
            simp only [decide_eq_false_iff_not]
            unfold session_max_messages
            omega)]
    refine ⟨messages.get ⟨54, h54⟩, (takeLastPy session_max_messages messages).drop 5, ?_, hplain54⟩
    rw [hfirst, hwin]
    rw [List.drop_drop, List.drop_drop]
    rw [show (session_max_messages + 4 = 54) from rfl, show (session_max_messages + 5 = 55) from rfl]
    rw [List.drop_eq_getElem_cons h54]
    rfl

/-- Fixture: a plain user text turn. -/
def userTextMsg : Msg := [("role", Value.vStr "user"), ("content", Value.vStr "hello")]

/-- Fixture: an assistant tool-use turn (not plain user text). -/
def toolUseMsg : Msg :=
  [("role", Value.vStr "assistant"),
   ("content", Value.vList [Value.vDict [("type", Value.vStr "tool_use")]])]

/-- Fixture: a 100-turn history in which exactly every 5th turn is plain
user text. -/
def msgsC7 : List Msg :=
  (List.range (2 * session_max_messages)).map
    (fun i => if i % 5 = 4 then userTextMsg else toolUseMsg)

/-- Claim C7 witness: trimming the concrete 100-turn history (only every 5th
turn plain user text) yields a window starting with a plain user-text turn. -/
theorem session_trim_spec_witness :
    session_max_messages < msgsC7.length ∧
    msgsC7.length = 2 * session_max_messages ∧
    (∃ (m : Msg) (rest : List Msg),
      _trim session_max_messages msgsC7 = m :: rest ∧ isPlainUserTurn m = true) :=
  ⟨by decide, by decide,
   (session_trim_spec msgsC7 (by decide)).2.2 (by decide) (by decide)⟩
